import Mathlib

/-!
Verification of the majowuji training-analytics core (LoadTracker,
RecommendationEngine, TrendPredictor, GoalCalculator) against its
natural-language specification.

Modelling conventions (shallow embedding of the Rust source):
* Timestamps (`chrono::DateTime<Utc>`) are integers counting seconds since an
  epoch.  `Duration::num_days` / `num_minutes` truncate toward zero exactly as
  chrono does, so they are `Int.tdiv`; a local calendar day
  (`with_timezone(tz).date_naive()`) is the floor `(t + tz).fdiv 86400` for a
  fixed-offset timezone `tz` in seconds.  The `Local` timezone of the process
  is an arbitrary fixed offset passed as a parameter; Moscow time is the fixed
  offset `3 * 3600` hard-coded in `progress_goal.rs`.
* `f32` arithmetic on the small quantities involved is modelled exactly in `ℚ`
  (scores, similarities, averages); the only irrational operations are the
  square root of the balance score, modelled in `ℝ` with `Real.sqrt`, and the
  fatigue curve `load ↦ 1 - e^(-load/50)`, which is transcendental and is kept
  as an explicit function parameter `fexp` of the goal calculator.  Every claim
  touches `fexp` only at load 0, where the code's value is exactly 0
  (`1 - e^0 = 0`, also in `f32`), an assumption stated as `fexp 0 = 0`.
* Rust's `HashMap` has deterministic contents but an unspecified (per-process
  randomised) iteration order.  Wherever the source iterates a `HashMap`
  (`MuscleTracker::get_loads_sorted`), the iteration order is an explicit
  parameter, a permutation of the key set; computations whose results are
  order-independent (sums, averages) are folded in a canonical order.
* `sort_by` / `sort_by_key` are stable; they are modelled by a stable
  insertion sort.
-/

/-! ### Time helpers (chrono semantics) -/

/-- `chrono::Duration::num_days`: whole days in a signed duration of seconds,
truncating toward zero (Rust integer division). -/
def numDays (diff : Int) : Int := diff.tdiv 86400

/-- `chrono::Duration::num_minutes`: whole minutes, truncating toward zero. -/
def numMinutes (diff : Int) : Int := diff.tdiv 60

/-- `t.with_timezone(&tz).date_naive()` for a fixed offset `tz` (seconds):
the calendar-day index containing instant `t`, i.e. the floor of the shifted
time over 86400. -/
def localDay (tz t : Int) : Int := (t + tz).fdiv 86400

/-- Moscow timezone offset (UTC+3), `moscow_tz()` in `progress_goal.rs`. -/
def moscowTz : Int := 3 * 3600

/-- Rust `f32::round`: round half away from zero. -/
def ratRound (q : ℚ) : Int := if 0 ≤ q then ⌊q + 1/2⌋ else ⌈q - 1/2⌉

/-! ### Data model (`exercises.rs`, `db/mod.rs`) -/

/-- The 11 fixed muscle-group tags. -/
inductive MuscleGroup where
  | Chest | Shoulders | Triceps | Back | Biceps | Core
  | Glutes | Quads | Hamstrings | Calves | FullBody
deriving DecidableEq, Repr

/-- `MuscleGroup::all()`. -/
def MuscleGroup.all : List MuscleGroup :=
  [.Chest, .Shoulders, .Triceps, .Back, .Biceps, .Core,
   .Glutes, .Quads, .Hamstrings, .Calves, .FullBody]

/-- Russian display names (`MuscleGroup::name_ru`). -/
def MuscleGroup.name_ru : MuscleGroup → String
  | .Chest => "грудные"
  | .Shoulders => "плечи"
  | .Triceps => "трицепс"
  | .Back => "спина"
  | .Biceps => "бицепс"
  | .Core => "кор"
  | .Glutes => "ягодицы"
  | .Quads => "квадрицепсы"
  | .Hamstrings => "бицепс бедра"
  | .Calves => "икры"
  | .FullBody => "всё тело"

/-- Exercise categories (`Category` in `exercises.rs`). -/
inductive ExCategory where
  | Push | Pull | Core | Legs | Taiji | Strikes | Stretch
deriving DecidableEq, Repr

/-- A static catalog entry (`Exercise` in `exercises.rs`). -/
structure Exercise where
  id : String
  name : String
  category : ExCategory
  muscle_groups : List MuscleGroup
  is_base : Bool
  is_timed : Bool
  description : Option String
  focus_cues : Option String
deriving Repr

/-- An append-only training record (`Training` in `db/mod.rs`); `date` is a
UTC timestamp in seconds. -/
structure Training where
  id : Option Int := none
  date : Int
  exercise : String
  sets : Int := 1
  reps : Int
  duration_secs : Option Int := none
  pulse_before : Option Int := none
  pulse_after : Option Int := none
  notes : Option String := none
  user_id : Option Int := none
deriving Repr, DecidableEq

/-! ### The static catalog (`BASE_EXERCISES` / `EXTRA_EXERCISES`) -/

/-- `BASE_EXERCISES`: the fixed daily program, in source order. -/
def BASE_EXERCISES : List Exercise := [
  { id := "pushups_fist", name := "отжимания на кулаках", category := .Push,
    muscle_groups := [.Chest, .Triceps, .Shoulders, .Core],
    is_base := true, is_timed := false, description := none, focus_cues := none },
  { id := "pushups_handles", name := "отжимания с ручками", category := .Push,
    muscle_groups := [.Chest, .Triceps, .Shoulders, .Core],
    is_base := true, is_timed := false, description := none, focus_cues := none },
  { id := "jackknife", name := "пресс складной нож", category := .Core,
    muscle_groups := [.Core],
    is_base := true, is_timed := false, description := none, focus_cues := none },
  { id := "plank_elbows", name := "стойка на локтях", category := .Core,
    muscle_groups := [.Core, .Shoulders],
    is_base := true, is_timed := true, description := none, focus_cues := none },
  { id := "squats_strikes", name := "приседания с ударами", category := .Legs,
    muscle_groups := [.Quads, .Glutes, .Core, .Shoulders],
    is_base := true, is_timed := false, description := none, focus_cues := none },
  { id := "taiji_shadow", name := "тайцзи бой с тенью", category := .Taiji,
    muscle_groups := [.FullBody],
    is_base := true, is_timed := true,
    description := some "Разминка. Выполняется в начале комплекса", focus_cues := none },
  { id := "swimmer", name := "пловец", category := .Core,
    muscle_groups := [.Back, .Shoulders],
    is_base := true, is_timed := false,
    description := some "Лёжа на животе, попеременно поднимай противоположные руку и ногу, имитируя плавание",
    focus_cues := some "Контролируй движение, не раскачивайся. Напрягай спину при каждом подъёме. Дыши ровно" },
  { id := "taiji_shadow_weapon", name := "тайцзи бой с тенью с оружием", category := .Taiji,
    muscle_groups := [.FullBody],
    is_base := true, is_timed := true,
    description := some "Завершение комплекса. Выполняется после всех базовых упражнений", focus_cues := none }
]

/-- `EXTRA_EXERCISES`: the non-base (bonus) catalog entries, in source order.
The long description / focus strings are kept verbatim where short and
abbreviated to their first sentence otherwise; no claim reads them. -/
def EXTRA_EXERCISES : List Exercise := [
  { id := "let_me_in", name := "впусти меня", category := .Pull,
    muscle_groups := [.Back, .Biceps, .Shoulders], is_base := false, is_timed := false,
    description := some "Стоя лицом к двери, держась за ручки с двух сторон",
    focus_cues := some "Своди лопатки в конце движения" },
  { id := "shelf_pullup", name := "подтягивание у полки", category := .Pull,
    muscle_groups := [.Biceps, .Back], is_base := false, is_timed := false,
    description := some "Встань у полки на уровне пояса",
    focus_cues := some "Напрягай бицепсы в верхней точке" },
  { id := "calf_raises", name := "подъём на носки", category := .Legs,
    muscle_groups := [.Calves], is_base := false, is_timed := false,
    description := some "Встань на край ступеньки носками",
    focus_cues := some "Максимально поднимайся на носки" },
  { id := "romanian_deadlift", name := "румынская тяга на одной ноге", category := .Legs,
    muscle_groups := [.Hamstrings, .Glutes, .Core], is_base := false, is_timed := false,
    description := some "Стоя на одной ноге, наклоняйся вперёд",
    focus_cues := some "Чувствуй растяжение задней поверхности бедра" },
  { id := "side_lunges", name := "выпады в сторону", category := .Legs,
    muscle_groups := [.Quads, .Glutes, .Hamstrings], is_base := false, is_timed := false,
    description := some "Шагни в сторону, согни опорную ногу",
    focus_cues := some "Толкайся пяткой опорной ноги" },
  { id := "star_jump", name := "прыжок-звезда", category := .Legs,
    muscle_groups := [.Quads, .Glutes, .Hamstrings, .Calves], is_base := false, is_timed := false,
    description := some "Из глубокого приседа сумо выпрыгни вверх",
    focus_cues := some "Взрывное отталкивание от пола" },
  { id := "pogo_jumps", name := "пого-прыжки", category := .Legs,
    muscle_groups := [.Calves], is_base := false, is_timed := false,
    description := some "Прыгай на месте на носках, не сгибая колени",
    focus_cues := some "Ноги как пружины - только голеностоп" },
  { id := "superman", name := "супермен", category := .Core,
    muscle_groups := [.Back, .Glutes, .Hamstrings], is_base := false, is_timed := true,
    description := some "Лёжа на животе, одновременно подними руки и ноги от пола",
    focus_cues := some "Сжимай ягодицы. Напрягай поясницу" },
  { id := "russian_twist", name := "русские скручивания", category := .Core,
    muscle_groups := [.Core], is_base := false, is_timed := false,
    description := some "Сидя с поднятыми ногами, скручивай корпус",
    focus_cues := some "Скручивай именно корпус, не просто руки" },
  { id := "side_plank", name := "боковая планка", category := .Core,
    muscle_groups := [.Core, .Shoulders], is_base := false, is_timed := true,
    description := some "На боку на локте, тело прямое от головы до пяток",
    focus_cues := some "Не проваливай таз" },
  { id := "t_spine_rotation", name := "вращение грудного отдела", category := .Stretch,
    muscle_groups := [.Back], is_base := false, is_timed := true,
    description := some "На четвереньках, поверни корпус и подними руку к потолку",
    focus_cues := some "Чувствуй вращение между лопатками" },
  { id := "thread_needle", name := "нить в иголку", category := .Stretch,
    muscle_groups := [.Shoulders, .Back], is_base := false, is_timed := true,
    description := some "На четвереньках, проведи руку под корпусом",
    focus_cues := some "Расслабь плечо к полу" },
  { id := "child_pose", name := "поза ребёнка", category := .Stretch,
    muscle_groups := [.Back, .Glutes], is_base := false, is_timed := true,
    description := some "Сидя на пятках, вытяни руки вперёд, лоб на пол",
    focus_cues := some "Расслабь поясницу" },
  { id := "pigeon_pose", name := "поза голубя", category := .Stretch,
    muscle_groups := [.Glutes, .Hamstrings], is_base := false, is_timed := true,
    description := some "Одна нога согнута впереди, другая вытянута назад",
    focus_cues := some "Чувствуй глубокое растяжение в ягодице" },
  { id := "figure_four_twist", name := "четвёрка с поворотом", category := .Stretch,
    muscle_groups := [.Glutes, .Core], is_base := false, is_timed := true,
    description := some "Лёжа на спине, положи лодыжку на колено другой ноги",
    focus_cues := some "Расслабь поясницу в пол" },
  { id := "hip_flexor_stretch", name := "растяжка сгибателей бедра", category := .Stretch,
    muscle_groups := [.Quads, .Core], is_base := false, is_timed := true,
    description := some "Лёжа на спине, подтяни одно колено к груди",
    focus_cues := some "Поясница прижата к полу - это ключ" },
  { id := "seated_forward_fold", name := "складка сидя", category := .Stretch,
    muscle_groups := [.Hamstrings, .Back], is_base := false, is_timed := true,
    description := some "Сидя с прямыми ногами, тянись руками к носкам",
    focus_cues := some "Наклоняйся от бёдер, не от поясницы" },
  { id := "happy_baby", name := "счастливый малыш", category := .Stretch,
    muscle_groups := [.Glutes, .Hamstrings], is_base := false, is_timed := true,
    description := some "Лёжа на спине, возьмись за внешние стороны стоп",
    focus_cues := some "Расслабь поясницу" },
  { id := "cobra", name := "кобра", category := .Stretch,
    muscle_groups := [.Core, .Back], is_base := false, is_timed := true,
    description := some "Лёжа на животе, подними грудь, упираясь ладонями",
    focus_cues := some "Отталкивайся руками, раскрывай грудь" },
  { id := "shadow_boxing", name := "бой с тенью", category := .Taiji,
    muscle_groups := [.FullBody], is_base := false, is_timed := true,
    description := some "Имитация боя с невидимым противником",
    focus_cues := some "Работай всем телом" }
]

/-- `get_base_exercises()`. -/
def get_base_exercises : List Exercise := BASE_EXERCISES

/-- `get_all_exercises()`: base then extra, in order. -/
def get_all_exercises : List Exercise := BASE_EXERCISES ++ EXTRA_EXERCISES

/-- `find_exercise_by_name`: first catalog entry with the given display name. -/
def find_exercise_by_name (name : String) : Option Exercise :=
  get_all_exercises.find? (fun e => e.name == name)

/-! ### Stable sorts (Rust `sort_by` / `sort_by_key` are stable) -/

/-- Insert `x` into `l` before the first element with a strictly larger key:
one step of a stable ascending insertion sort. -/
def insertAsc (key : α → Int) (x : α) : List α → List α
  | [] => [x]
  | y :: ys => if key x < key y then x :: y :: ys else y :: insertAsc key x ys

/-- Stable ascending sort by an integer key (`sort_by_key`). -/
def stableSortAsc (key : α → Int) (l : List α) : List α :=
  l.foldl (fun acc x => insertAsc key x acc) []

/-- Insert `x` into `l` before the first element with a strictly smaller key:
one step of a stable descending insertion sort. -/
def insertDesc (key : α → ℚ) (x : α) : List α → List α
  | [] => [x]
  | y :: ys => if key y < key x then x :: y :: ys else y :: insertDesc key x ys

/-- Stable descending sort by a rational key
(`sort_by(|a, b| b.partial_cmp(&a))`, `sort_by_key(|e| Reverse(k(e)))`). -/
def stableSortDesc (key : α → ℚ) (l : List α) : List α :=
  l.foldl (fun acc x => insertDesc key x acc) []

theorem insertAsc_perm (key : α → Int) (x : α) (l : List α) :
    (insertAsc key x l).Perm (x :: l) := by
  induction l with
  | nil => simp [insertAsc]
  | cons y ys ih =>
    simp only [insertAsc]
    split
    · exact List.Perm.refl _
    · exact ((ih.cons y).trans (List.Perm.swap x y ys))

theorem stableSortAsc_perm (key : α → Int) (l : List α) :
    (stableSortAsc key l).Perm l := by
  suffices h : ∀ acc : List α, (l.foldl (fun acc x => insertAsc key x acc) acc).Perm (l.reverse ++ acc) by
    simpa [stableSortAsc] using (h []).trans (by simp)
  induction l with
  | nil => intro acc; simp
  | cons y ys ih =>
    intro acc
    simp only [List.foldl_cons, List.reverse_cons, List.append_assoc, List.singleton_append]
    exact (ih _).trans (List.Perm.append_left _ (insertAsc_perm key y acc))

theorem insertDesc_perm (key : α → ℚ) (x : α) (l : List α) :
    (insertDesc key x l).Perm (x :: l) := by
  induction l with
  | nil => simp [insertDesc]
  | cons y ys ih =>
    simp only [insertDesc]
    split
    · exact List.Perm.refl _
    · exact ((ih.cons y).trans (List.Perm.swap x y ys))

theorem stableSortDesc_perm (key : α → ℚ) (l : List α) :
    (stableSortDesc key l).Perm l := by
  suffices h : ∀ acc : List α, (l.foldl (fun acc x => insertDesc key x acc) acc).Perm (l.reverse ++ acc) by
    simpa [stableSortDesc] using (h []).trans (by simp)
  induction l with
  | nil => intro acc; simp
  | cons y ys ih =>
    intro acc
    simp only [List.foldl_cons, List.reverse_cons, List.append_assoc, List.singleton_append]
    exact (ih _).trans (List.Perm.append_left _ (insertDesc_perm key y acc))

/-! ### LoadTracker (`muscle_tracker.rs`) -/

/-- Per-group load statistics (`MuscleLoad`). -/
structure MuscleLoad where
  group : MuscleGroup
  today_volume : Int
  week_volume : Int
  last_trained : Option Int
deriving Repr

/-- The update applied to one muscle-group entry for one record
(the body of the inner loop of `MuscleTracker::from_trainings`). -/
def load_update (t : Training) (is_today is_this_week : Bool) (load : MuscleLoad) : MuscleLoad :=
  { load with
    today_volume := load.today_volume + (if is_today then t.reps else 0),
    week_volume := load.week_volume + (if is_this_week then t.reps else 0),
    last_trained :=
      match load.last_trained with
      | none => some t.date
      | some prev => if prev < t.date then some t.date else some prev }

/-- One record's contribution to the loads map (the body of the outer loop of
`MuscleTracker::from_trainings`). -/
def loads_step (now tz : Int) (loads : MuscleGroup → MuscleLoad) (t : Training) :
    MuscleGroup → MuscleLoad :=
  match find_exercise_by_name t.exercise with
  | none => loads
  | some ex =>
    let today := localDay tz now
    let week_ago := today - 7
    let training_date := localDay tz t.date
    let is_today := training_date == today
    let is_this_week := decide (week_ago ≤ training_date)
    ex.muscle_groups.foldl (fun loads m =>
      fun g => if g = m then load_update t is_today is_this_week (loads g) else loads g)
      loads

/-- The all-zero initial loads map (`loads.insert` over all groups). -/
def loads_init : MuscleGroup → MuscleLoad := fun g =>
  { group := g, today_volume := 0, week_volume := 0, last_trained := none }

/-- The deterministic content of the `loads` HashMap built by
`MuscleTracker::from_trainings`, as a function from the (fixed) key set.
`now`/`tz` model `Local::now()`. -/
def from_trainings (trainings : List Training) (now tz : Int) : MuscleGroup → MuscleLoad :=
  trainings.foldl (loads_step now tz) loads_init

/-- `MuscleTracker::get_loads_sorted`: the HashMap values in iteration order
`order` (an arbitrary permutation of the 11 keys), stably sorted by
`today_volume` ascending. -/
def get_loads_sorted (trainings : List Training) (now tz : Int)
    (order : List MuscleGroup) : List MuscleLoad :=
  stableSortAsc (fun l => l.today_volume) (order.map (from_trainings trainings now tz))

/-- `MuscleTracker::get_underworked_groups`. -/
def get_underworked_groups (trainings : List Training) (now tz : Int)
    (order : List MuscleGroup) (limit : Nat) : List MuscleGroup :=
  (((get_loads_sorted trainings now tz order).filter
      (fun l => l.group ≠ MuscleGroup.FullBody)).take limit).map (fun l => l.group)

/-- The week volumes over the ten non-FullBody groups in canonical order; the
source reads them from `loads.values()` and only ever combines them with
order-independent operations (sum, length, sum of squares). -/
def week_volumes (trainings : List Training) (now tz : Int) : List Int :=
  (MuscleGroup.all.filter (fun g => g ≠ MuscleGroup.FullBody)).map
    (fun g => (from_trainings trainings now tz g).week_volume)

/-- `MuscleTracker::get_balance_score`.  Exact-real model of the `f32`
computation; `Real.sqrt` models `f32::sqrt`. -/
noncomputable def get_balance_score (trainings : List Training) (now tz : Int) : ℝ :=
  let volumes := week_volumes trainings now tz
  if volumes.isEmpty then 0
  else
    let total : Int := volumes.sum
    if total = 0 then 0
    else
      let target : ℝ := (total : ℝ) / (volumes.length : ℝ)
      let variance : ℝ :=
        (volumes.map (fun v => ((v : ℝ) - target) ^ 2)).sum / (volumes.length : ℝ)
      let std_dev := Real.sqrt variance
      let cv := if 0 < target then std_dev / target else 0
      max ((1 - min cv 1) * 100) 0

/-! ### RecommendationEngine (`recommender.rs`) -/

/-- A recommendation (`Recommendation` in `recommender.rs`). -/
structure Recommendation where
  exercise : Exercise
  reason : String
  confidence : ℚ
  is_bonus : Bool
  detailed_description : Option String
  focus_cues : Option String
deriving Repr

/-- `Recommender::is_done_today` (also the inline `done_today` checks). -/
def is_done_today (trainings : List Training) (now tz : Int) (name : String) : Bool :=
  trainings.any (fun t => t.exercise == name && localDay tz t.date == localDay tz now)

/-- `Recommender::base_program_done_today`. -/
def base_program_done_today (trainings : List Training) (now tz : Int) : Bool :=
  get_base_exercises.all (fun e => is_done_today trainings now tz e.name)

/-- `Recommender::hours_since_exercise`: hours since the FIRST record of the
exercise in list order (`.find()`), in whole minutes over 60; `none` models
the `f32::MAX` returned for a never-performed exercise. -/
def hours_since_exercise (trainings : List Training) (now : Int) (name : String) : Option ℚ :=
  (trainings.find? (fun t => t.exercise == name)).map
    (fun t => (numMinutes (now - t.date) : ℚ) / 60)

/-- The `hours_since >= 1.0` rest checks (`f32::MAX` always passes). -/
def rest_ok (trainings : List Training) (now : Int) (name : String) : Bool :=
  match hours_since_exercise trainings now name with
  | none => true
  | some h => decide (1 ≤ h)

/-- `Recommender::ever_done`. -/
def ever_done (trainings : List Training) (name : String) : Bool :=
  trainings.any (fun t => t.exercise == name)

/-- `Recommender::days_since_exercise` (first record in list order). -/
def days_since_exercise (trainings : List Training) (now : Int) (name : String) : Option Int :=
  (trainings.find? (fun t => t.exercise == name)).map (fun t => numDays (now - t.date))

/-- The warm-up branch of `Recommender::get_base_recommendation`: recommend
`taiji_shadow` when it is not yet done today and rest-satisfied. -/
def warm_recommendation (trainings : List Training) (now tz : Int) : Option Recommendation :=
  if !is_done_today trainings now tz "тайцзи бой с тенью" then
    match get_base_exercises.find? (fun e => e.id == "taiji_shadow") with
    | some ex =>
      if rest_ok trainings now ex.name then
        some ⟨ex, "разминка — начни с этого", 1, false, none, none⟩
      else none
    | none => none
  else none

/-- The scored middle candidates of `get_base_recommendation` (non-warm-up,
non-cooldown base exercises not done today and rest-satisfied).  Numeric text
in reasons (`{:.0}`) is rendered via `ratRound`/`toString`; no claim reads
reason strings. -/
def middle_candidates (trainings : List Training) (now tz : Int)
    (order : List MuscleGroup) : List (Exercise × ℚ × String) :=
  let underworked := get_underworked_groups trainings now tz order 5
  get_base_exercises.filterMap (fun e =>
    if e.id == "taiji_shadow" || e.id == "taiji_shadow_weapon" then none
    else if is_done_today trainings now tz e.name then none
    else if !rest_ok trainings now e.name then none
    else
      let targets := e.muscle_groups.filter (fun mg => underworked.contains mg)
      let score : ℚ :=
        if !targets.isEmpty then
          (targets.length : ℚ) / (e.muscle_groups.length : ℚ) + 1/2
        else 3/10
      let reason :=
        if !targets.isEmpty then
          String.intercalate ", " (targets.map MuscleGroup.name_ru) ++ " мало работали"
        else
          match hours_since_exercise trainings now e.name with
          | none => "ещё не делали"
          | some h => "отдохнули " ++ toString (ratRound h) ++ "ч"
      some (e, score, reason))

/-- The cooldown branch of `get_base_recommendation`. -/
def cooldown_recommendation (trainings : List Training) (now tz : Int) :
    Option Recommendation :=
  if !is_done_today trainings now tz "тайцзи бой с тенью с оружием" then
    match get_base_exercises.find? (fun e => e.id == "taiji_shadow_weapon") with
    | some ex =>
      if rest_ok trainings now ex.name then
        some ⟨ex, "завершение комплекса", 1, false, none, none⟩
      else none
    | none => none
  else none

/-- `Recommender::get_base_recommendation`: warm-up first, then the best
scored middle exercise (stable descending sort, first element), then the
cooldown. -/
def get_base_recommendation (trainings : List Training) (now tz : Int)
    (order : List MuscleGroup) : Option Recommendation :=
  match warm_recommendation trainings now tz with
  | some r => some r
  | none =>
    match (stableSortDesc (fun c => c.2.1) (middle_candidates trainings now tz order)).head? with
    | some (e, s, rsn) => some ⟨e, rsn, s, false, none, none⟩
    | none => cooldown_recommendation trainings now tz

/-- The non-base catalog entries. -/
def bonus_exercises : List Exercise := get_all_exercises.filter (fun e => !e.is_base)

/-- Count of currently underworked muscles an exercise targets. -/
def underworked_count (underworked : List MuscleGroup) (e : Exercise) : Nat :=
  (e.muscle_groups.filter (fun mg => underworked.contains mg)).length

/-- Bonus group 1: never done and targeting an underworked muscle. -/
def never_done_underworked (trainings : List Training) (underworked : List MuscleGroup) :
    List Exercise :=
  bonus_exercises.filter (fun e =>
    !ever_done trainings e.name && e.muscle_groups.any (fun mg => underworked.contains mg))

/-- Bonus group 2: never done at all. -/
def never_done_any (trainings : List Training) : List Exercise :=
  bonus_exercises.filter (fun e => !ever_done trainings e.name)

/-- Bonus group 3: all rest-satisfied bonus exercises with the composite
score `10 × underworked + min(days since last done, 30)`. -/
def bonus_scored (trainings : List Training) (now : Int)
    (underworked : List MuscleGroup) : List (Exercise × ℚ) :=
  (bonus_exercises.filter (fun e => rest_ok trainings now e.name)).map (fun e =>
    let days := (days_since_exercise trainings now e.name).getD 0
    let underworked_score : ℚ := (underworked_count underworked e : ℚ) * 10
    let recency_score : ℚ := min (days : ℚ) 30
    (e, underworked_score + recency_score))

/-- `Recommender::get_bonus_recommendation`: never-done-targeting-underworked,
then never-done-any, then all rest-satisfied scored. -/
def get_bonus_recommendation (trainings : List Training) (now tz : Int)
    (order : List MuscleGroup) : Option Recommendation :=
  if !(never_done_underworked trainings (get_underworked_groups trainings now tz order 5)).isEmpty then
    match (stableSortDesc
        (fun e => (underworked_count (get_underworked_groups trainings now tz order 5) e : ℚ))
        (never_done_underworked trainings (get_underworked_groups trainings now tz order 5))).head? with
    | some exercise =>
      some ⟨exercise,
        "Новое упражнение! " ++ String.intercalate ", "
          ((exercise.muscle_groups.filter
            (fun mg => (get_underworked_groups trainings now tz order 5).contains mg)).map
            MuscleGroup.name_ru) ++ " нужна нагрузка",
        1, true, exercise.description, exercise.focus_cues⟩
    | none => none
  else if !(never_done_any trainings).isEmpty then
    match (stableSortDesc
        (fun e => (underworked_count (get_underworked_groups trainings now tz order 5) e : ℚ))
        (never_done_any trainings)).head? with
    | some exercise =>
      some ⟨exercise, "Новое упражнение для разнообразия", 9/10, true,
        exercise.description, exercise.focus_cues⟩
    | none => none
  else
    match (stableSortDesc (fun c => c.2) (bonus_scored trainings now
        (get_underworked_groups trainings now tz order 5))).head? with
    | some (exercise, score) =>
      some ⟨exercise,
        (if !((exercise.muscle_groups.filter
            (fun mg => (get_underworked_groups trainings now tz order 5).contains mg)).map
            MuscleGroup.name_ru).isEmpty then
          String.intercalate ", "
            ((exercise.muscle_groups.filter
              (fun mg => (get_underworked_groups trainings now tz order 5).contains mg)).map
              MuscleGroup.name_ru) ++
            " нужна нагрузка (последний раз " ++
            toString ((days_since_exercise trainings now exercise.name).getD 0) ++ " дн. назад)"
        else "Давно не делали (" ++
          toString ((days_since_exercise trainings now exercise.name).getD 0) ++ " дн. назад)"),
        score / 50, true, exercise.description, exercise.focus_cues⟩
    | none => none

/-- `Recommender::get_recommendation`. -/
def get_recommendation (trainings : List Training) (now tz : Int)
    (order : List MuscleGroup) : Option Recommendation :=
  if base_program_done_today trainings now tz then
    get_bonus_recommendation trainings now tz order
  else
    get_base_recommendation trainings now tz order

/-! ### TrendPredictor (`predictor.rs`) -/

/-- Rust `Iterator::max` / `min` on integer lists (value only). -/
def intMax? : List Int → Option Int
  | [] => none
  | x :: xs => match intMax? xs with | none => some x | some m => some (max x m)

def intMin? : List Int → Option Int
  | [] => none
  | x :: xs => match intMin? xs with | none => some x | some m => some (min x m)

/-- `ProgressPredictor`: the fitted model.  `exercise_trainings` caches
`(date, reps)` pairs. -/
structure ProgressPredictor where
  slope : ℚ
  intercept : ℚ
  r2_score : ℚ
  data_points : Nat
  first_date : Int
  exercise_trainings : List (Int × Int)
deriving Repr

/-- `MIN_DATA_POINTS`. -/
def MIN_DATA_POINTS : Nat := 3

/-- `ProgressPredictor::train`.  The linfa least-squares fit is modelled by
the closed-form ordinary-least-squares solution in exact rationals; on
degenerate data (all x equal) the solver returns a minimum-norm solution
rather than an error, modelled here by total `ℚ` division (`x / 0 = 0`).  No
claim inspects the fitted coefficients, only presence of the result. -/
def ProgressPredictor.train (trainings : List Training) (exercise : String) :
    Option ProgressPredictor :=
  let exercise_trainings := trainings.filter (fun t => t.exercise == exercise)
  if exercise_trainings.length < MIN_DATA_POINTS then none
  else
    match intMin? (exercise_trainings.map (fun t => t.date)) with
    | none => none
    | some first_date =>
      let xy : List (ℚ × ℚ) := exercise_trainings.map
        (fun t => ((numDays (t.date - first_date) : ℚ), (t.reps : ℚ)))
      let n : ℚ := xy.length
      let sum_x := (xy.map (fun p => p.1)).sum
      let sum_y := (xy.map (fun p => p.2)).sum
      let sum_xy := (xy.map (fun p => p.1 * p.2)).sum
      let sum_xx := (xy.map (fun p => p.1 * p.1)).sum
      let denom := n * sum_xx - sum_x * sum_x
      let slope := (n * sum_xy - sum_x * sum_y) / denom
      let intercept := (sum_y - slope * sum_x) / n
      let ss_tot : ℚ := (xy.map (fun p => (p.2 - sum_y / n) ^ 2)).sum
      let ss_res : ℚ := (xy.map (fun p => (p.2 - (slope * p.1 + intercept)) ^ 2)).sum
      let r2_score := if ss_tot = 0 then 0 else 1 - ss_res / ss_tot
      some ⟨slope, intercept, r2_score, exercise_trainings.length, first_date,
        exercise_trainings.map (fun t => (t.date, t.reps))⟩

/-! ### GoalCalculator (`progress_goal.rs`) -/

/-- `SessionContext`: per-muscle prior load as an association list whose key
set is exactly the set of muscles touched today (HashMap `entry().or_insert`
creates the key even for zero reps). -/
structure SessionContext where
  prior_load : List (MuscleGroup × Int)
  session_duration_secs : Int
  exercises_done : Nat
deriving Repr

/-- `prior_load.get(m).copied().unwrap_or(0)`. -/
def lookupLoad (l : List (MuscleGroup × Int)) (m : MuscleGroup) : Int :=
  match l.find? (fun p => p.1 == m) with
  | some p => p.2
  | none => 0

/-- `*prior_load.entry(m).or_insert(0) += r`. -/
def addLoad (l : List (MuscleGroup × Int)) (m : MuscleGroup) (r : Int) :
    List (MuscleGroup × Int) :=
  match l with
  | [] => [(m, r)]
  | p :: ps => if p.1 = m then (p.1, p.2 + r) :: ps else p :: addLoad ps m r

/-- `HistoricalSession`. -/
structure HistoricalSession where
  date : Int
  context_before : SessionContext
  exercise_name : String
  achieved_value : Int
deriving Repr

/-- `GoalConfidence`. -/
inductive GoalConfidence where
  | Low | Medium | High
deriving DecidableEq, Repr

/-- `ProgressGoal`. -/
structure ProgressGoal where
  target_value : Int
  personal_best : Option Int
  beat_record_target : Option Int
  is_timed : Bool
  confidence : GoalConfidence
  fatigue_factor : ℚ
  similar_sessions : Nat
  today_sets : Nat
  today_value : Int
  fatigued_muscles : List MuscleGroup
  avg_7_days : Option ℚ
  avg_14_days : Option ℚ
  record_date : Option Int
  is_consolidating : Bool
  consolidation_days_left : Option Int
  record_confirmed : Bool
deriving Repr

/-- `RECORD_CONSOLIDATION_DAYS`. -/
def RECORD_CONSOLIDATION_DAYS : Int := 7

/-- `GoalCalculator::find_personal_best_with_date`: best achieved value
(duration for timed, reps otherwise) and the earliest date achieving it. -/
def find_personal_best_with_date (trainings : List Training) (exercise_name : String)
    (is_timed : Bool) : Option (Int × Int) :=
  let filtered := trainings.filter (fun t => t.exercise == exercise_name)
  if filtered.isEmpty then none
  else
    match (if is_timed then intMax? (filtered.filterMap (fun t => t.duration_secs))
           else intMax? (filtered.map (fun t => t.reps))) with
    | none => none
    | some best_value =>
      match intMin? ((filtered.filter (fun t =>
          if is_timed then t.duration_secs == some best_value
          else t.reps == best_value)).map (fun t => t.date)) with
      | none => none
      | some best_date => some (best_value, best_date)

/-- `GoalCalculator::has_confirmation_in_window`. -/
def has_confirmation_in_window (trainings : List Training) (exercise_name : String)
    (personal_best : Int) (is_timed : Bool) (window_days : Int) (now : Int) : Bool :=
  let cutoff := now - window_days * 86400
  trainings.any (fun t =>
    t.exercise == exercise_name && decide (cutoff ≤ t.date) &&
    (if is_timed then decide (personal_best ≤ t.duration_secs.getD 0)
     else decide (personal_best ≤ t.reps)))

/-- `GoalCalculator::build_current_context` (Moscow calendar day). -/
def build_current_context (trainings : List Training) (now : Int) : SessionContext :=
  let today := localDay moscowTz now
  let today_trainings := trainings.filter (fun t => localDay moscowTz t.date == today)
  today_trainings.foldl (fun ctx t =>
    let load' := match find_exercise_by_name t.exercise with
      | some ex => ex.muscle_groups.foldl (fun l m => addLoad l m t.reps) ctx.prior_load
      | none => ctx.prior_load
    { prior_load := load',
      session_duration_secs := ctx.session_duration_secs + t.duration_secs.getD 0,
      exercises_done := ctx.exercises_done + 1 })
    { prior_load := [], session_duration_secs := 0, exercises_done := 0 }

/-- `GoalCalculator::fatigue_factor`, with the transcendental per-muscle curve
`load ↦ 1 - e^(-load/50)` supplied as `fexp`. -/
def fatigueFactor (fexp : Int → ℚ) (context : SessionContext)
    (muscles : List MuscleGroup) : ℚ :=
  if muscles.isEmpty then 0
  else (muscles.map (fun m => fexp (lookupLoad context.prior_load m))).sum /
    (muscles.length : ℚ)

/-- `GoalCalculator::compute_similarity`. -/
def compute_similarity (historical current : SessionContext) : ℚ :=
  let hist_keys := historical.prior_load.map (fun p => p.1)
  let all_muscles := hist_keys ++
    (current.prior_load.map (fun p => p.1)).filter (fun m => !hist_keys.contains m)
  if all_muscles.isEmpty then 1
  else
    let total_diff : ℚ := (all_muscles.map (fun m =>
      let hist_load := lookupLoad historical.prior_load m
      let curr_load := lookupLoad current.prior_load m
      let max_load : ℚ := ((max (max hist_load curr_load) 1 : Int) : ℚ)
      ((hist_load - curr_load).natAbs : ℚ) / max_load)).sum
    let avg_diff := total_diff / (all_muscles.length : ℚ)
    1 - min avg_diff 1

/-- The distinct Moscow-calendar days of the record list (`group_by_day`
keys); processed in first-appearance order — every consumer combines per-day
results with order-independent operations. -/
def day_keys (trainings : List Training) : List Int :=
  trainings.foldl (fun acc t =>
    let d := localDay moscowTz t.date
    if acc.contains d then acc else acc ++ [d]) []

/-- The records of one day in original order (`group_by_day` values). -/
def day_trainings (trainings : List Training) (d : Int) : List Training :=
  trainings.filter (fun t => localDay moscowTz t.date == d)

/-- The inner loop of `find_similar_sessions` over one day's records (already
sorted by timestamp): reconstruct the context before each record, and collect
each occurrence of the target exercise whose similarity reaches 0.5. -/
def replay_day (exercise_name : String) (current_context : SessionContext)
    (is_timed : Bool) (sorted : List Training) : List (HistoricalSession × ℚ) :=
  (sorted.foldl (fun st t =>
    let context_before : SessionContext :=
      { prior_load := st.1, session_duration_secs := st.2.1, exercises_done := st.2.2.1 }
    let acc' :=
      if t.exercise == exercise_name then
        let similarity := compute_similarity context_before current_context
        if (1 : ℚ)/2 ≤ similarity then
          st.2.2.2 ++ [(⟨t.date, context_before, t.exercise,
            if is_timed then t.duration_secs.getD 0 else t.reps⟩, similarity)]
        else st.2.2.2
      else st.2.2.2
    let load' := match find_exercise_by_name t.exercise with
      | some ex => ex.muscle_groups.foldl (fun l m => addLoad l m t.reps) st.1
      | none => st.1
    (load', st.2.1 + t.duration_secs.getD 0, st.2.2.1 + 1, acc'))
    (([] : List (MuscleGroup × Int)), (0 : Int), (0 : Nat),
      ([] : List (HistoricalSession × ℚ)))).2.2.2

/-- `GoalCalculator::find_similar_sessions`. -/
def find_similar_sessions (trainings : List Training) (exercise_name : String)
    (current_context : SessionContext) (is_timed : Bool) (now : Int) :
    List (HistoricalSession × ℚ) :=
  let today := localDay moscowTz now
  ((day_keys trainings).filter (fun d => d ≠ today)).flatMap (fun d =>
    replay_day exercise_name current_context is_timed
      (stableSortAsc (fun t => t.date) (day_trainings trainings d)))

/-- `GoalCalculator::calculate_averages`. -/
def calculate_averages (trainings : List Training) (exercise_name : String)
    (is_timed : Bool) (now : Int) : Option ℚ × Option ℚ :=
  let calc_avg := fun (days : Int) =>
    let cutoff := now - days * 86400
    let recent := trainings.filter (fun t => t.exercise == exercise_name && decide (cutoff ≤ t.date))
    if recent.isEmpty then none
    else if is_timed then
      some (((recent.filterMap (fun t => t.duration_secs)).sum : ℚ) / (recent.length : ℚ))
    else some (((recent.map (fun t => t.reps)).sum : ℚ) / (recent.length : ℚ))
  (calc_avg 7, calc_avg 14)

/-- `GoalCalculator::calculate`.  `fexp` is the fatigue curve
`load ↦ 1 - e^(-load/50)` (see module comment); `now` is `Utc::now()`. -/
def calculate (fexp : Int → ℚ) (trainings : List Training) (exercise_name : String)
    (now : Int) : Option ProgressGoal :=
  match find_exercise_by_name exercise_name with
  | none => none
  | some exercise =>
    let is_timed := exercise.is_timed
    let current_context := build_current_context trainings now
    let fatigue_factor := fatigueFactor fexp current_context exercise.muscle_groups
    let fatigued_muscles := exercise.muscle_groups.filter
      (fun m => 0 < lookupLoad current_context.prior_load m)
    let today := localDay moscowTz now
    let today_exercises := (trainings.filter
      (fun t => localDay moscowTz t.date == today)).filter
      (fun t => t.exercise == exercise_name)
    let today_sets := today_exercises.length
    let today_value : Int :=
      if is_timed then (today_exercises.filterMap (fun t => t.duration_secs)).sum
      else (today_exercises.map (fun t => t.reps)).sum
    let pbd := find_personal_best_with_date trainings exercise_name is_timed
    let personal_best := pbd.map (fun p => p.1)
    let record_date := pbd.map (fun p => p.2)
    let days_since_record := (record_date.map (fun d => numDays (now - d))).getD 0
    let record_confirmed := (personal_best.map (fun pb =>
      has_confirmation_in_window trainings exercise_name pb is_timed
        RECORD_CONSOLIDATION_DAYS now)).getD false
    let is_consolidating :=
      if personal_best.isNone then false
      else if days_since_record < RECORD_CONSOLIDATION_DAYS then true
      else !record_confirmed
    let consolidation_days_left :=
      if is_consolidating then
        some (RECORD_CONSOLIDATION_DAYS - days_since_record.tmod RECORD_CONSOLIDATION_DAYS)
      else none
    let beat_record_target :=
      if is_consolidating then none else personal_best.map (fun best => best + 1)
    let similar := find_similar_sessions trainings exercise_name current_context is_timed now
    let target_value : Int :=
      if similar.isEmpty then
        let base := personal_best.getD (if is_timed then 60 else 10)
        let raw_target := base + 1
        ratRound ((raw_target : ℚ) * (1 - fatigue_factor * (3/10)))
      else
        let weighted_sum : ℚ := (similar.map (fun p => (p.1.achieved_value : ℚ) * p.2)).sum
        let weight_total : ℚ := (similar.map (fun p => p.2)).sum
        let avg := weighted_sum / weight_total
        ratRound (avg + 1)
    let total_attempts := (trainings.filter (fun t => t.exercise == exercise_name)).length
    let confidence :=
      if total_attempts ≤ 2 then GoalConfidence.Low
      else if total_attempts ≤ 5 then GoalConfidence.Medium
      else GoalConfidence.High
    let avgs := calculate_averages trainings exercise_name is_timed now
    some {
      target_value := max target_value 1
      personal_best := personal_best
      beat_record_target := beat_record_target
      is_timed := is_timed
      confidence := confidence
      fatigue_factor := fatigue_factor
      similar_sessions := similar.length
      today_sets := today_sets
      today_value := today_value
      fatigued_muscles := fatigued_muscles
      avg_7_days := avgs.1
      avg_14_days := avgs.2
      record_date := record_date
      is_consolidating := is_consolidating
      consolidation_days_left := consolidation_days_left
      record_confirmed := record_confirmed }

/-! ### Helper lemmas -/

theorem intMax?_spec : ∀ {l : List Int} {m : Int}, intMax? l = some m →
    m ∈ l ∧ ∀ x ∈ l, x ≤ m := by
  intro l
  induction l with
  | nil => intro m h; simp [intMax?] at h
  | cons a as ih =>
    intro m h
    cases has : intMax? as with
    | none =>
      have hnil : as = [] := by
        cases as with
        | nil => rfl
        | cons b bs => simp only [intMax?] at has; split at has <;> simp_all
      subst hnil
      simp [intMax?] at h
      subst h
      simp
    | some m' =>
      simp only [intMax?, has] at h
      simp at h
      obtain ⟨hm', hall⟩ := ih has
      subst h
      constructor
      · rcases le_total a m' with hle | hle
        · simp only [max_eq_right hle]; exact List.mem_cons_of_mem a hm'
        · simp [max_eq_left hle]
      · intro x hx
        rcases List.mem_cons.mp hx with rfl | hx
        · exact le_max_left _ _
        · exact le_trans (hall x hx) (le_max_right a m')

theorem intMin?_spec : ∀ {l : List Int} {m : Int}, intMin? l = some m →
    m ∈ l ∧ ∀ x ∈ l, m ≤ x := by
  intro l
  induction l with
  | nil => intro m h; simp [intMin?] at h
  | cons a as ih =>
    intro m h
    cases has : intMin? as with
    | none =>
      have hnil : as = [] := by
        cases as with
        | nil => rfl
        | cons b bs => simp only [intMin?] at has; split at has <;> simp_all
      subst hnil
      simp [intMin?] at h
      subst h
      simp
    | some m' =>
      simp only [intMin?, has] at h
      simp at h
      obtain ⟨hm', hall⟩ := ih has
      subst h
      constructor
      · rcases le_total a m' with hle | hle
        · simp [min_eq_left hle]
        · simp only [min_eq_right hle]; exact List.mem_cons_of_mem a hm'
      · intro x hx
        rcases List.mem_cons.mp hx with rfl | hx
        · exact min_le_left _ _
        · exact le_trans (min_le_right a m') (hall x hx)

theorem intMin?_isSome {l : List Int} (h : l ≠ []) : (intMin? l).isSome := by
  cases l with
  | nil => exact absurd rfl h
  | cons a as => simp only [intMin?]; cases intMin? as <;> simp

/-! ### Claim C9 -/

/-- Claim C9: `GoalCalculator::calculate` is total over all record lists and
returns an absent result exactly when the exercise name has no catalog match;
for every name in the catalog it returns a goal for every record list,
including the empty one. -/
theorem C9_calculate_total_iff_catalog (fexp : Int → ℚ) (trainings : List Training)
    (exercise_name : String) (now : Int) :
    (calculate fexp trainings exercise_name now).isSome =
      (find_exercise_by_name exercise_name).isSome := by
  unfold calculate
  cases find_exercise_by_name exercise_name <;> simp

/-! ### Claim C10 -/

/-- Claim C10: whenever `GoalCalculator::calculate` produces a goal, its
fatigue-adjusted `target_value` is at least 1 (`.max(1)` clamps from below),
for every record list and every catalog exercise. -/
theorem C10_target_value_at_least_one (fexp : Int → ℚ) (trainings : List Training)
    (exercise_name : String) (now : Int) (g : ProgressGoal)
    (h : calculate fexp trainings exercise_name now = some g) :
    1 ≤ g.target_value := by
  unfold calculate at h
  cases hf : find_exercise_by_name exercise_name with
  | none => rw [hf] at h; exact absurd h (by simp)
  | some ex =>
    rw [hf] at h
    simp only [Option.some.injEq] at h
    subst h
    exact le_max_right _ _

/-- A default goal used to name concrete computation results in witnesses. -/
def dfltGoal : ProgressGoal :=
  { target_value := 0, personal_best := none, beat_record_target := none,
    is_timed := false, confidence := .Low, fatigue_factor := 0,
    similar_sessions := 0, today_sets := 0, today_value := 0,
    fatigued_muscles := [], avg_7_days := none, avg_14_days := none,
    record_date := none, is_consolidating := false,
    consolidation_days_left := none, record_confirmed := false }

/-- Witness for C10: concrete instance (empty log, the plank exercise). -/
theorem C10_witness :
    1 ≤ (((calculate (fun _ => 0) [] "стойка на локтях" 0).getD dfltGoal).target_value) :=
  C10_target_value_at_least_one (fun _ => 0) [] "стойка на локтях" 0 _
    (by with_unfolding_all rfl)

/-! ### Claim C6 -/

/-- Claim C6: `TrendPredictor` (`ProgressPredictor::train`) produces a result
if and only if at least 3 records exist for the named exercise; with fewer
than 3 matching records (including zero) it returns no result (`none`), not an
error — the function is total. -/
theorem C6_train_iff_three_records (trainings : List Training) (exercise : String) :
    (ProgressPredictor.train trainings exercise).isSome ↔
      3 ≤ (trainings.filter (fun t => t.exercise == exercise)).length := by
  unfold ProgressPredictor.train MIN_DATA_POINTS
  by_cases h : (trainings.filter (fun t => t.exercise == exercise)).length < 3
  · simp only [h, if_true]
    simp
    omega
  · simp only [h, if_false]
    have hne : (trainings.filter (fun t => t.exercise == exercise)).map (fun t => t.date) ≠ [] := by
      intro hc
      rw [List.map_eq_nil_iff] at hc
      rw [hc] at h
      simp at h
    have hs := intMin?_isSome hne
    cases hm : intMin? ((trainings.filter (fun t => t.exercise == exercise)).map (fun t => t.date)) with
    | none => rw [hm] at hs; simp at hs
    | some fd =>
      simp only [hm]
      simp
      omega

/-! ### Claim C2 -/

/-- The list of achieved values for an exercise: `duration_secs` for timed
exercises, `reps` otherwise (the list whose iterator `.max()` the source
takes). -/
def achieved_values (trainings : List Training) (name : String) (is_timed : Bool) : List Int :=
  let filtered := trainings.filter (fun t => t.exercise == name)
  if is_timed then filtered.filterMap (fun t => t.duration_secs)
  else filtered.map (fun t => t.reps)

/-- The dates of the records achieving value `v` (the list whose iterator
`.min()` the source takes for the breakthrough date). -/
def record_dates_achieving (trainings : List Training) (name : String)
    (is_timed : Bool) (v : Int) : List Int :=
  ((trainings.filter (fun t => t.exercise == name)).filter (fun t =>
    if is_timed then t.duration_secs == some v else t.reps == v)).map (fun t => t.date)

/-- Two concrete record lists for the claim's stated instances. -/
def C2_trainings_a : List Training :=
  [{ date := 15 * 86400, exercise := "отжимания на кулаках", reps := 10 },
   { date := 16 * 86400, exercise := "отжимания на кулаках", reps := 12 },
   { date := 17 * 86400, exercise := "отжимания на кулаках", reps := 14 }]

def C2_trainings_b : List Training :=
  [{ date := 20 * 86400 - 10 * 86400, exercise := "отжимания на кулаках", reps := 15 },
   { date := 20 * 86400 - 2 * 86400, exercise := "отжимания на кулаках", reps := 15 }]

/-- Claim C2: `personal_best` is the maximum achieved value over all records
for the exercise, and `record_date` is the earliest date among the records
achieving that maximum; in particular `[10,12,14]` on three distinct days
gives 14, and two occurrences of 15 at day-10 and day-2 give the day-10
record date. -/
theorem C2_personal_best_max_earliest :
    (∀ (trainings : List Training) (name : String) (is_timed : Bool) (v d : Int),
      find_personal_best_with_date trainings name is_timed = some (v, d) →
        (v ∈ achieved_values trainings name is_timed ∧
          ∀ x ∈ achieved_values trainings name is_timed, x ≤ v) ∧
        (d ∈ record_dates_achieving trainings name is_timed v ∧
          ∀ x ∈ record_dates_achieving trainings name is_timed v, d ≤ x)) ∧
    (find_personal_best_with_date C2_trainings_a "отжимания на кулаках" false).map
      (fun p => p.1) = some 14 ∧
    find_personal_best_with_date C2_trainings_b "отжимания на кулаках" false =
      some (15, 10 * 86400) := by
  refine ⟨?_, by decide, by decide⟩
  intro trainings name is_timed v d h
  simp only [find_personal_best_with_date] at h
  by_cases he : (trainings.filter (fun t => t.exercise == name)).isEmpty = true
  · rw [if_pos he] at h; exact absurd h (by simp)
  · rw [if_neg he] at h
    cases is_timed with
    | true =>
      rw [if_pos rfl] at h
      split at h
      · exact absurd h (by simp)
      · split at h
        · exact absurd h (by simp)
        · rename_i x1 bv hmax x2 bd hmin
          simp only [Option.some.injEq, Prod.mk.injEq] at h
          obtain ⟨rfl, rfl⟩ := h
          exact ⟨intMax?_spec (by simpa [achieved_values] using hmax),
            intMin?_spec (by simpa [record_dates_achieving] using hmin)⟩
    | false =>
      rw [if_neg (by simp)] at h
      split at h
      · exact absurd h (by simp)
      · split at h
        · exact absurd h (by simp)
        · rename_i x1 bv hmax x2 bd hmin
          simp only [Option.some.injEq, Prod.mk.injEq] at h
          obtain ⟨rfl, rfl⟩ := h
          exact ⟨intMax?_spec (by simpa [achieved_values] using hmax),
            intMin?_spec (by simpa [record_dates_achieving] using hmin)⟩

/-- Witness for C2: the universally quantified part applied to the first
concrete list. -/
theorem C2_witness :
    (14 ∈ achieved_values C2_trainings_a "отжимания на кулаках" false ∧
      ∀ x ∈ achieved_values C2_trainings_a "отжимания на кулаках" false, x ≤ 14) ∧
    (17 * 86400 ∈ record_dates_achieving C2_trainings_a "отжимания на кулаках" false 14 ∧
      ∀ x ∈ record_dates_achieving C2_trainings_a "отжимания на кулаках" false 14,
        17 * 86400 ≤ x) :=
  C2_personal_best_max_earliest.1 C2_trainings_a "отжимания на кулаках" false 14
    (17 * 86400) (by decide)

/-! ### Claim C5 -/

/-- Invariant of one load update: volumes stay nonnegative and weekly volume
dominates today's (a today record is also within the trailing week). -/
theorem load_update_invariant (t : Training) (is_today is_this_week : Bool)
    (hreps : 0 ≤ t.reps) (himp : is_today = true → is_this_week = true)
    (load : MuscleLoad)
    (hl : 0 ≤ load.today_volume ∧ 0 ≤ load.week_volume ∧
      load.today_volume ≤ load.week_volume) :
    0 ≤ (load_update t is_today is_this_week load).today_volume ∧
    0 ≤ (load_update t is_today is_this_week load).week_volume ∧
    (load_update t is_today is_this_week load).today_volume ≤
      (load_update t is_today is_this_week load).week_volume := by
  obtain ⟨h1, h2, h3⟩ := hl
  unfold load_update
  cases is_today with
  | true =>
    have := himp rfl
    subst this
    simp only [if_true]
    refine ⟨by omega, by omega, by omega⟩
  | false =>
    cases is_this_week <;> simp <;> omega

/-- The loads invariant is preserved by the per-record step. -/
theorem loads_step_invariant (now tz : Int) (t : Training) (hreps : 0 ≤ t.reps)
    (loads : MuscleGroup → MuscleLoad)
    (hl : ∀ g, 0 ≤ (loads g).today_volume ∧ 0 ≤ (loads g).week_volume ∧
      (loads g).today_volume ≤ (loads g).week_volume) :
    ∀ g, 0 ≤ (loads_step now tz loads t g).today_volume ∧
      0 ≤ (loads_step now tz loads t g).week_volume ∧
      (loads_step now tz loads t g).today_volume ≤ (loads_step now tz loads t g).week_volume := by
  unfold loads_step
  cases hf : find_exercise_by_name t.exercise with
  | none => exact hl
  | some ex =>
    simp only
    have himp : (localDay tz t.date == localDay tz now) = true →
        decide (localDay tz now - 7 ≤ localDay tz t.date) = true := by
      intro h
      have := beq_iff_eq.mp h
      simp [this]
    generalize ex.muscle_groups = ms
    induction ms generalizing loads with
    | nil => exact hl
    | cons m ms ih =>
      simp only [List.foldl_cons]
      apply ih
      intro g
      by_cases hg : g = m
      · simp only [hg, if_pos rfl]
        exact load_update_invariant t _ _ hreps himp _ (hl m)
      · simp only [if_neg hg]
        exact hl g

/-- The loads invariant holds for the full fold. -/
theorem from_trainings_invariant (trainings : List Training) (now tz : Int)
    (hreps : ∀ t ∈ trainings, 0 ≤ t.reps) :
    ∀ g, 0 ≤ (from_trainings trainings now tz g).today_volume ∧
      0 ≤ (from_trainings trainings now tz g).week_volume ∧
      (from_trainings trainings now tz g).today_volume ≤
        (from_trainings trainings now tz g).week_volume := by
  unfold from_trainings
  suffices hgen : ∀ (l : List Training) (acc : MuscleGroup → MuscleLoad),
      (∀ t ∈ l, 0 ≤ t.reps) →
      (∀ g, 0 ≤ (acc g).today_volume ∧ 0 ≤ (acc g).week_volume ∧
        (acc g).today_volume ≤ (acc g).week_volume) →
      ∀ g, 0 ≤ ((l.foldl (loads_step now tz) acc) g).today_volume ∧
        0 ≤ ((l.foldl (loads_step now tz) acc) g).week_volume ∧
        ((l.foldl (loads_step now tz) acc) g).today_volume ≤
          ((l.foldl (loads_step now tz) acc) g).week_volume by
    exact hgen trainings loads_init hreps (fun g => by simp [loads_init])
  intro l
  induction l with
  | nil => intro acc _ hacc; exact hacc
  | cons t ts ih =>
    intro acc hr hacc
    simp only [List.foldl_cons]
    exact ih _ (fun u hu => hr u (List.mem_cons_of_mem t hu))
      (loads_step_invariant now tz t (hr t (List.mem_cons_self t ts)) acc hacc)

/-- Claim C5: for every record list (with nonnegative rep counts, the
well-formedness invariant of logged records) and every muscle group, the
weekly volume computed by the LoadTracker dominates today's volume. -/
theorem C5_week_volume_ge_today_volume (trainings : List Training) (now tz : Int)
    (g : MuscleGroup) (hreps : ∀ t ∈ trainings, 0 ≤ t.reps) :
    (from_trainings trainings now tz g).today_volume ≤
      (from_trainings trainings now tz g).week_volume :=
  (from_trainings_invariant trainings now tz hreps g).2.2

/-- Witness for C5: a concrete two-record history. -/
theorem C5_witness :
    (from_trainings
      [{ date := 864000, exercise := "отжимания на кулаках", reps := 20 },
       { date := 864000 - 3 * 86400, exercise := "отжимания на кулаках", reps := 30 }]
      864000 0 MuscleGroup.Chest).today_volume ≤
    (from_trainings
      [{ date := 864000, exercise := "отжимания на кулаках", reps := 20 },
       { date := 864000 - 3 * 86400, exercise := "отжимания на кулаках", reps := 30 }]
      864000 0 MuscleGroup.Chest).week_volume :=
  C5_week_volume_ge_today_volume _ 864000 0 MuscleGroup.Chest (by decide)

/-! ### Claim C1 -/

/-- The boolean 7-day confirmation check, propositionally: some record of the
exercise within the trailing 7 × 86400 seconds reached the personal best. -/
theorem has_confirmation_iff (trainings : List Training) (name : String) (pb : Int)
    (tm : Bool) (now : Int) :
    has_confirmation_in_window trainings name pb tm 7 now = true ↔
      ∃ t ∈ trainings, t.exercise = name ∧ now - 7 * 86400 ≤ t.date ∧
        pb ≤ (if tm then t.duration_secs.getD 0 else t.reps) := by
  unfold has_confirmation_in_window
  cases tm <;>
    simp [List.any_eq_true, Bool.and_eq_true, beq_iff_eq, decide_eq_true_iff, and_assoc]

/-- Claim C1: the consolidation state machine of `GoalCalculator::calculate`:
no record ⇒ not consolidating; fewer than 7 (whole, truncated) days since the
record date ⇒ consolidating; from day 7 on, consolidating exactly when no
record in the trailing 7 days reached the personal best.  While consolidating
the beat-record challenge is absent and
`consolidation_days_left = 7 − (days_since_record mod 7)`; once not
consolidating, `beat_record_target = personal_best + 1`. -/
theorem C1_consolidation_state_machine (fexp : Int → ℚ) (trainings : List Training)
    (name : String) (now : Int) (g : ProgressGoal)
    (h : calculate fexp trainings name now = some g) :
    (g.personal_best = none → g.is_consolidating = false) ∧
    (∀ d, g.record_date = some d → numDays (now - d) < 7 → g.is_consolidating = true) ∧
    (∀ d pb, g.record_date = some d → g.personal_best = some pb →
      7 ≤ numDays (now - d) →
      (g.is_consolidating = true ↔
        ¬ ∃ t ∈ trainings, t.exercise = name ∧ now - 7 * 86400 ≤ t.date ∧
          pb ≤ (if g.is_timed then t.duration_secs.getD 0 else t.reps))) ∧
    (∀ d, g.is_consolidating = true → g.record_date = some d →
      g.beat_record_target = none ∧
      g.consolidation_days_left = some (7 - (numDays (now - d)).tmod 7)) ∧
    (g.is_consolidating = false → ∀ pb, g.personal_best = some pb →
      g.beat_record_target = some (pb + 1)) := by
  unfold calculate at h
  cases hf : find_exercise_by_name name with
  | none => rw [hf] at h; exact absurd h (by simp)
  | some ex =>
    rw [hf] at h
    simp only [Option.some.injEq] at h
    subst h
    cases hpbd : find_personal_best_with_date trainings name ex.is_timed with
    | none =>
      refine ⟨fun _ => by simp, fun d hd => by simp at hd,
        fun d pb hd => by simp at hd,
        fun d hcons => by simp at hcons,
        fun _ pb hpb => by simp at hpb⟩
    | some p =>
      obtain ⟨pb0, d0⟩ := p
      by_cases hdays : numDays (now - d0) < 7
      · -- within the first 7-day window: always consolidating
        refine ⟨fun hpb => by simp at hpb, fun d hd hlt => ?_,
          fun d pb hd hpb hge => ?_, fun d hcons hd => ?_, fun hcons pb hpb => ?_⟩
        · simp [RECORD_CONSOLIDATION_DAYS, hdays]
        · have hd0 : d = d0 := by simpa using hd.symm
          rw [hd0] at hge
          omega
        · have hd0 : d = d0 := by simpa using hd.symm
          rw [hd0]
          exact ⟨by simp [RECORD_CONSOLIDATION_DAYS, hdays],
            by simp [RECORD_CONSOLIDATION_DAYS, hdays]⟩
        · simp [RECORD_CONSOLIDATION_DAYS, hdays] at hcons
      · -- at or beyond day 7: consolidating iff not confirmed
        refine ⟨fun hpb => by simp at hpb, fun d hd hlt => ?_,
          fun d pb hd hpb hge => ?_, fun d hcons hd => ?_, fun hcons pb hpb => ?_⟩
        · have hd0 : d = d0 := by simpa using hd.symm
          rw [hd0] at hlt
          exact absurd hlt hdays
        · have hpbe : pb = pb0 := by simpa using hpb.symm
          subst hpbe
          simp [RECORD_CONSOLIDATION_DAYS, hdays]
          constructor
          · intro hfalse x hx hname hle
            by_contra hlt
            push_neg at hlt
            have hex : ∃ t ∈ trainings, t.exercise = name ∧ now - 7 * 86400 ≤ t.date ∧
                pb ≤ (if ex.is_timed then t.duration_secs.getD 0 else t.reps) :=
              ⟨x, hx, hname, by omega, hlt⟩
            rw [(has_confirmation_iff trainings name pb ex.is_timed now).mpr hex] at hfalse
            cases hfalse
          · intro hall
            cases hc : has_confirmation_in_window trainings name pb ex.is_timed 7 now with
            | false => rfl
            | true =>
              obtain ⟨t, ht, hn, hdate, hval⟩ :=
                (has_confirmation_iff trainings name pb ex.is_timed now).mp hc
              exact absurd hval (not_le.mpr (hall t ht hn (by omega)))
        · have hd0 : d = d0 := by simpa using hd.symm
          rw [hd0]
          simp [RECORD_CONSOLIDATION_DAYS, hdays] at hcons
          constructor
          · simp [RECORD_CONSOLIDATION_DAYS, hdays, hcons]
          · simp [RECORD_CONSOLIDATION_DAYS, hdays, hcons]
        · have hpbe : pb = pb0 := by simpa using hpb.symm
          subst hpbe
          simp [RECORD_CONSOLIDATION_DAYS, hdays] at hcons
          simp [RECORD_CONSOLIDATION_DAYS, hdays, hcons]

/-- The concrete record list for the C1 witness: one 20-rep pushup record at
time 0, evaluated 3 days later. -/
def C1w_trainings : List Training :=
  [{ date := 0, exercise := "отжимания на кулаках", reps := 20 }]

/-- The concretely computed goal for the C1 witness. -/
def C1w_goal : ProgressGoal :=
  (calculate (fun _ => 0) C1w_trainings "отжимания на кулаках" (3 * 86400)).getD dfltGoal

/-- Witness for C1: a record set 3 days ago (20 reps of pushups), evaluated
concretely — consolidating, no beat target, 4 days left. -/
theorem C1_witness :
    (C1w_goal.personal_best = none → C1w_goal.is_consolidating = false) ∧
    (∀ d, C1w_goal.record_date = some d → numDays (3 * 86400 - d) < 7 →
      C1w_goal.is_consolidating = true) ∧
    (∀ d pb, C1w_goal.record_date = some d → C1w_goal.personal_best = some pb →
      7 ≤ numDays (3 * 86400 - d) →
      (C1w_goal.is_consolidating = true ↔
        ¬ ∃ t ∈ C1w_trainings, t.exercise = "отжимания на кулаках" ∧
          3 * 86400 - 7 * 86400 ≤ t.date ∧
          pb ≤ (if C1w_goal.is_timed then t.duration_secs.getD 0 else t.reps))) ∧
    (∀ d, C1w_goal.is_consolidating = true → C1w_goal.record_date = some d →
      C1w_goal.beat_record_target = none ∧
      C1w_goal.consolidation_days_left = some (7 - (numDays (3 * 86400 - d)).tmod 7)) ∧
    (C1w_goal.is_consolidating = false → ∀ pb, C1w_goal.personal_best = some pb →
      C1w_goal.beat_record_target = some (pb + 1)) :=
  C1_consolidation_state_machine (fun _ => 0) C1w_trainings
    "отжимания на кулаках" (3 * 86400) C1w_goal (by with_unfolding_all rfl)

/-! ### Claim C7 -/

theorem sum_map_zero {α : Type} (l : List α) : (l.map (fun _ => (0 : ℚ))).sum = 0 := by
  induction l with
  | nil => rfl
  | cons a as ih => simp [ih]

/-- Rounding fixes integers (`f32::round` of a whole number). -/
theorem ratRound_int (n : Int) : ratRound ((n : ℚ)) = n := by
  unfold ratRound
  rcases le_or_lt 0 n with h | h
  · rw [if_pos (by exact_mod_cast h)]
    rw [show ((n : ℚ) + 1/2) = 1/2 + (n : ℚ) from by ring, Int.floor_add_int]
    norm_num
  · rw [if_neg (by push_neg; exact_mod_cast h)]
    rw [show ((n : ℚ) - 1/2) = -(1/2) + (n : ℚ) from by ring, Int.ceil_add_int]
    norm_num

/-- With no prior load today, the fatigue factor is exactly 0 (the code's
`1 - e^0 = 0`, stated through `fexp 0 = 0`). -/
theorem fatigueFactor_empty_context (fexp : Int → ℚ) (h0 : fexp 0 = 0)
    (ms : List MuscleGroup) :
    fatigueFactor fexp (⟨[], 0, 0⟩ : SessionContext) ms = 0 := by
  unfold fatigueFactor
  split
  · rfl
  · have : ms.map (fun m => fexp (lookupLoad [] m)) = ms.map (fun _ => (0 : ℚ)) := by
      apply List.map_congr_left
      intro m _
      simpa [lookupLoad] using h0
    rw [this, sum_map_zero, zero_div]

theorem find_similar_sessions_nil (n : String) (c : SessionContext) (tm : Bool) (now : Int) :
    find_similar_sessions [] n c tm now = [] := rfl

theorem find_personal_best_nil (n : String) (tm : Bool) :
    find_personal_best_with_date [] n tm = none := rfl

/-- Claim C7 (amended): on an empty record log, the recommendation is the
non-bonus warm-up base exercise with positive confidence, and the goal for
any catalog exercise has Low confidence and target `default + 1` scaled by
zero fatigue — 11 for rep-based exercises (default 10) and 61 for timed ones
(default 60 seconds), not 11 for every exercise as the claim stated. -/
theorem C7_empty_log_defaults :
    (∀ (now tz : Int) (order : List MuscleGroup),
      (get_recommendation [] now tz order).map
        (fun r => (r.is_bonus, r.exercise.is_base, decide (0 < r.confidence))) =
        some (false, true, true)) ∧
    (∀ (fexp : Int → ℚ) (name : String) (now : Int) (ex : Exercise) (g : ProgressGoal),
      fexp 0 = 0 → find_exercise_by_name name = some ex →
      calculate fexp [] name now = some g →
      g.confidence = GoalConfidence.Low ∧
        g.target_value = (if ex.is_timed then 61 else 11)) := by
  constructor
  · intro now tz order
    with_unfolding_all rfl
  · intro fexp name now ex g h0 hf h
    unfold calculate at h
    rw [hf] at h
    simp only [Option.some.injEq] at h
    subst h
    constructor
    · simp
    · have hff := fatigueFactor_empty_context fexp h0 ex.muscle_groups
      cases htm : ex.is_timed <;>
      · simp [find_similar_sessions_nil, find_personal_best_nil, htm,
          build_current_context, hff, ratRound_int]
        with_unfolding_all decide

/-- Counterexample for C7 as stated: for the timed plank exercise the target
on an empty log is 61 (default 60 seconds + 1), not 11. -/
theorem C7_counterexample :
    (calculate (fun _ => 0) [] "стойка на локтях" 0).map (fun g => g.target_value) =
      some 61 ∧ (61 : Int) ≠ 11 := by
  constructor
  · with_unfolding_all decide
  · decide

/-- Witness for C7: the goal clause applied to the rep-based pushups
exercise on the empty log. -/
theorem C7_witness :
    ((calculate (fun _ => 0) [] "отжимания на кулаках" 0).getD dfltGoal).confidence =
        GoalConfidence.Low ∧
      ((calculate (fun _ => 0) [] "отжимания на кулаках" 0).getD dfltGoal).target_value =
        (if (false : Bool) then 61 else 11) :=
  C7_empty_log_defaults.2 (fun _ => 0) "отжимания на кулаках" 0
    { id := "pushups_fist", name := "отжимания на кулаках", category := .Push,
      muscle_groups := [.Chest, .Triceps, .Shoulders, .Core], is_base := true,
      is_timed := false, description := none, focus_cues := none } _ rfl
    (by with_unfolding_all rfl) (by with_unfolding_all rfl)

/-! ### Claim C8 -/

/-- Snapshot for C8: the warm-up was done two hours ago, today. -/
def C8_trainings : List Training :=
  [{ date := 864000 + 3600, exercise := "тайцзи бой с тенью", reps := 1,
     duration_secs := some 300 }]

/-- The fixed "now" for C8 (03:00 on day 10, UTC). -/
def C8_now : Int := 864000 + 3 * 3600

/-- Two possible `HashMap` iteration orders over the muscle-group keys. -/
def C8_orderA : List MuscleGroup := MuscleGroup.all
def C8_orderB : List MuscleGroup := MuscleGroup.all.reverse

/-- Claim C8 is violated by the code: on an identical snapshot and identical
"now", two legal `HashMap` iteration orders (both permutations of the key
set; Rust's `HashMap` order is randomised per process) make
`get_recommendation` return two different exercises — the tie among
zero-volume muscle groups in `get_underworked_groups` is broken by map
iteration order, so the choice is not reproducible across runs. -/
theorem C8_recommendation_depends_on_hashmap_order :
    (get_recommendation C8_trainings C8_now 0 C8_orderA).map (fun r => r.exercise.id) =
        some "swimmer" ∧
    (get_recommendation C8_trainings C8_now 0 C8_orderB).map (fun r => r.exercise.id) =
        some "jackknife" ∧
    C8_orderA.Perm MuscleGroup.all ∧ C8_orderB.Perm MuscleGroup.all := by
  refine ⟨?_, ?_, by decide, by decide⟩
  · with_unfolding_all decide
  · with_unfolding_all decide

/-! ### Claim C3 -/

theorem le_of_tdiv60 (a : Int) (h : 60 ≤ a.tdiv 60) : 3600 ≤ a := by
  rcases a with m | m
  · rw [show (Int.ofNat m).tdiv 60 = Int.ofNat (m / 60) from rfl,
      Int.ofNat_eq_natCast] at h
    have hm : (60 : ℕ) ≤ m / 60 := by exact_mod_cast h
    have h2 : (3600 : ℕ) ≤ m := by omega
    show (3600 : ℤ) ≤ Int.ofNat m
    rw [Int.ofNat_eq_natCast]
    exact_mod_cast h2
  · rw [show (Int.negSucc m).tdiv 60 = -Int.ofNat (m.succ / 60) from rfl,
      Int.ofNat_eq_natCast] at h
    have : (0 : ℤ) ≤ ((m.succ / 60 : ℕ) : ℤ) := Int.natCast_nonneg _
    omega

theorem rest_ok_true_of_find_none {trainings : List Training} {now : Int} {name : String}
    (h : trainings.find? (fun t => t.exercise == name) = none) :
    rest_ok trainings now name = true := by
  unfold rest_ok hours_since_exercise
  rw [h]
  rfl

theorem rest_ok_date_bound {trainings : List Training} {now : Int} {name : String}
    {u : Training} (hf : trainings.find? (fun t => t.exercise == name) = some u)
    (h : rest_ok trainings now name = true) : 3600 ≤ now - u.date := by
  unfold rest_ok hours_since_exercise at h
  rw [hf] at h
  simp only [Option.map, decide_eq_true_eq] at h
  have h60 : (60 : ℚ) ≤ ((numMinutes (now - u.date) : Int) : ℚ) :=
    (one_le_div (by norm_num : (0 : ℚ) < 60)).mp h
  have : (60 : Int) ≤ numMinutes (now - u.date) := by exact_mod_cast h60
  exact le_of_tdiv60 _ this

theorem find_date_max {name : String} :
    ∀ {trainings : List Training} {u : Training},
    trainings.Pairwise (fun a b => b.date ≤ a.date) →
    trainings.find? (fun t => t.exercise == name) = some u →
    ∀ t ∈ trainings, t.exercise = name → t.date ≤ u.date := by
  intro trainings
  induction trainings with
  | nil => intro u _ hf; simp at hf
  | cons a as ih =>
    intro u hsort hf t ht hname
    rw [List.pairwise_cons] at hsort
    obtain ⟨ha, has⟩ := hsort
    by_cases hp : (a.exercise == name) = true
    · simp only [List.find?, hp] at hf
      simp only [Option.some.injEq] at hf
      subst hf
      rcases List.mem_cons.mp ht with rfl | hmem
      · exact le_refl _
      · exact ha t hmem
    · have hp2 : (a.exercise == name) = false := by simpa using hp
      simp only [List.find?, hp2] at hf
      rcases List.mem_cons.mp ht with rfl | hmem
      · exact absurd (by simp [hname]) hp
      · exact ih has hf t hmem hname

/-- On a date-descending record list, a passed rest check bounds the elapsed
time since EVERY record of the exercise, not just the first one found. -/
theorem rest_ok_all_dates {trainings : List Training} {now : Int} {name : String}
    (hsort : trainings.Pairwise (fun a b => b.date ≤ a.date))
    (h : rest_ok trainings now name = true) :
    ∀ t ∈ trainings, t.exercise = name → 3600 ≤ now - t.date := by
  intro t ht hn
  cases hf : trainings.find? (fun t => t.exercise == name) with
  | none =>
    have := List.find?_eq_none.mp hf t ht
    simp [hn] at this
  | some u =>
    have hu := rest_ok_date_bound hf h
    have hd := find_date_max hsort hf t ht hn
    omega

theorem head?_mem {α : Type} {l : List α} {x : α} (h : l.head? = some x) : x ∈ l := by
  cases l with
  | nil => simp at h
  | cons a as =>
    simp only [List.head?_cons, Option.some.injEq] at h
    subst h
    exact List.mem_cons_self a as

theorem mem_of_sortDesc_head? {α : Type} (key : α → ℚ) {l : List α} {x : α}
    (h : (stableSortDesc key l).head? = some x) : x ∈ l :=
  (stableSortDesc_perm key l).mem_iff.mp (head?_mem h)

theorem ever_done_false_rest_ok {trainings : List Training} {now : Int} {name : String}
    (h : ever_done trainings name = false) : rest_ok trainings now name = true := by
  apply rest_ok_true_of_find_none
  rw [List.find?_eq_none]
  intro t ht
  unfold ever_done at h
  rw [List.any_eq_false] at h
  exact h t ht

/-- Every recommendation returned by the base path is rest-checked. -/
theorem base_recommendation_rest_ok {trainings : List Training} {now tz : Int}
    {order : List MuscleGroup} {r : Recommendation}
    (h : get_base_recommendation trainings now tz order = some r) :
    rest_ok trainings now r.exercise.name = true := by
  unfold get_base_recommendation at h
  cases hw : warm_recommendation trainings now tz with
  | some r0 =>
    simp only [hw, Option.some.injEq] at h
    subst h
    unfold warm_recommendation at hw
    split at hw
    · split at hw
      · split at hw
        · simp only [Option.some.injEq] at hw
          subst hw
          rename_i ex hfind hrest
          exact hrest
        · exact absurd hw (by simp)
      · exact absurd hw (by simp)
    · exact absurd hw (by simp)
  | none =>
    simp only [hw] at h
    cases hh : (stableSortDesc (fun c => c.2.1)
        (middle_candidates trainings now tz order)).head? with
    | some c =>
      obtain ⟨e, sc, rsn⟩ := c
      simp only [hh, Option.some.injEq] at h
      subst h
      have hmem := mem_of_sortDesc_head? _ hh
      unfold middle_candidates at hmem
      simp only [List.mem_filterMap] at hmem
      obtain ⟨e0, _, he0⟩ := hmem
      split at he0
      · exact absurd he0 (by simp)
      · split at he0
        · exact absurd he0 (by simp)
        · split at he0
          · exact absurd he0 (by simp)
          · rename_i hnotid hnotdone hrest
            simp only [Option.some.injEq, Prod.mk.injEq] at he0
            obtain ⟨rfl, -, -⟩ := he0
            simpa using hrest
    | none =>
      simp only [hh] at h
      unfold cooldown_recommendation at h
      split at h
      · split at h
        · split at h
          · simp only [Option.some.injEq] at h
            subst h
            rename_i ex hfind hrest
            exact hrest
          · exact absurd h (by simp)
        · exact absurd h (by simp)
      · exact absurd h (by simp)

/-- Every recommendation returned by the bonus path is rest-checked (the two
never-done groups satisfy the check vacuously). -/
theorem bonus_recommendation_rest_ok {trainings : List Training} {now tz : Int}
    {order : List MuscleGroup} {r : Recommendation}
    (h : get_bonus_recommendation trainings now tz order = some r) :
    rest_ok trainings now r.exercise.name = true := by
  unfold get_bonus_recommendation at h
  split at h
  · -- group 1: never done, targeting underworked
    cases hh : (stableSortDesc
        (fun e => (underworked_count (get_underworked_groups trainings now tz order 5) e : ℚ))
        (never_done_underworked trainings (get_underworked_groups trainings now tz order 5))).head? with
    | some ex =>
      simp only [hh, Option.some.injEq] at h
      subst h
      have hmem := mem_of_sortDesc_head? _ hh
      unfold never_done_underworked at hmem
      rw [List.mem_filter] at hmem
      obtain ⟨-, hcond⟩ := hmem
      rw [Bool.and_eq_true] at hcond
      exact ever_done_false_rest_ok (by simpa using hcond.1)
    | none => simp only [hh] at h; exact Option.noConfusion h
  · split at h
    · -- group 2: never done at all
      cases hh : (stableSortDesc
          (fun e => (underworked_count (get_underworked_groups trainings now tz order 5) e : ℚ))
          (never_done_any trainings)).head? with
      | some ex =>
        simp only [hh, Option.some.injEq] at h
        subst h
        have hmem := mem_of_sortDesc_head? _ hh
        unfold never_done_any at hmem
        rw [List.mem_filter] at hmem
        exact ever_done_false_rest_ok (by simpa using hmem.2)
      | none => simp only [hh] at h; exact Option.noConfusion h
    · -- group 3: filtered on the rest check
      cases hh : (stableSortDesc (fun c => c.2) (bonus_scored trainings now
          (get_underworked_groups trainings now tz order 5))).head? with
      | some c =>
        obtain ⟨ex, sc⟩ := c
        simp only [hh, Option.some.injEq] at h
        subst h
        have hmem := mem_of_sortDesc_head? _ hh
        unfold bonus_scored at hmem
        simp only [List.mem_map] at hmem
        obtain ⟨e0, he0, heq⟩ := hmem
        rw [List.mem_filter] at he0
        have he : e0 = ex := congrArg Prod.fst heq
        subst he
        exact he0.2
      | none => simp only [hh] at h; exact Option.noConfusion h

/-- Claim C3 (amended): on a record list sorted by date descending (as the
record store returns it: `ORDER BY date DESC`), the exercise returned by
`Recommender::get_recommendation` was never performed less than 1 hour before
"now", on any date (never-performed counts as infinite elapsed time).  On an
arbitrarily ordered list the claim fails — see the counterexample — because
`hours_since_exercise` reads the FIRST matching record in list order. -/
theorem C3_no_recent_exercise_recommended (trainings : List Training) (now tz : Int)
    (order : List MuscleGroup) (r : Recommendation)
    (hsort : trainings.Pairwise (fun a b => b.date ≤ a.date))
    (h : get_recommendation trainings now tz order = some r) :
    ∀ t ∈ trainings, t.exercise = r.exercise.name → 3600 ≤ now - t.date := by
  unfold get_recommendation at h
  split at h
  · exact rest_ok_all_dates hsort (bonus_recommendation_rest_ok h)
  · exact rest_ok_all_dates hsort (base_recommendation_rest_ok h)

/-- An unsorted (oldest-first) record list on which the claim fails: the old
pushup record appears before one from 50 minutes ago (which fell on the
previous local calendar day, just before midnight), so `hours_since_exercise`
(`.find()`) sees only the old record and the rest check passes. -/
def C3_trainings : List Training :=
  [{ date := 864000 - 5 * 86400, exercise := "отжимания на кулаках", reps := 10 },
   { date := 864000 + 1800 - 3000, exercise := "отжимания на кулаках", reps := 10 },
   { date := 864000 + 300, exercise := "тайцзи бой с тенью", reps := 1,
     duration_secs := some 60 }]

/-- The fixed "now" for the counterexample: 00:30 local on day 10. -/
def C3_now : Int := 864000 + 1800

/-- A HashMap iteration order making pushups the top-scored candidate. -/
def C3_order : List MuscleGroup :=
  [.Chest, .Triceps, .Shoulders, .Core, .Biceps, .Back,
   .Glutes, .Quads, .Hamstrings, .Calves, .FullBody]

/-- Counterexample for C3 as stated: on this (unsorted) record list the
recommended exercise WAS performed less than one hour before "now". -/
theorem C3_counterexample :
    (get_recommendation C3_trainings C3_now 0 C3_order).map (fun r =>
      C3_trainings.any (fun t =>
        t.exercise == r.exercise.name && decide (C3_now - t.date < 3600))) =
      some true ∧ C3_order.Perm MuscleGroup.all := by
  exact ⟨by with_unfolding_all decide, by decide⟩

/-- The record list for the C3 witness: only the warm-up, ten days ago
(trivially date-descending). -/
def C3w_trainings : List Training :=
  [{ date := 0, exercise := "тайцзи бой с тенью", reps := 1, duration_secs := some 60 }]

/-- A default exercise used to name concrete results in witnesses. -/
def dfltEx : Exercise :=
  { id := "", name := "", category := .Push, muscle_groups := [],
    is_base := false, is_timed := false, description := none, focus_cues := none }

/-- A default recommendation used to name concrete results in witnesses. -/
def dfltRec : Recommendation :=
  { exercise := dfltEx, reason := "", confidence := 0, is_bonus := false,
    detailed_description := none, focus_cues := none }

/-- Witness for C3 (amended): a date-descending list whose only record is the
warm-up, performed ten days ago; the warm-up is recommended and the elapsed
time bound holds at that record. -/
theorem C3_witness :
    (3600 : Int) ≤ 864000 -
      (C3w_trainings.headD { date := 0, exercise := "", reps := 0 }).date :=
  C3_no_recent_exercise_recommended C3w_trainings 864000 0 MuscleGroup.all _
    (by decide) (by with_unfolding_all rfl)
    (C3w_trainings.headD { date := 0, exercise := "", reps := 0 })
    (by decide) (by with_unfolding_all rfl)

/-! ### Claim C4 -/

/-- Modelled from the spec's words, for the refinement claim: "coefficient of
variation of `week_volume` across all groups except full-body, mapped to
`(1 − min(cv,1)) × 100`, clamped ≥ 0; returns 0 if total week volume is 0". -/
noncomputable def spec_balance_score (trainings : List Training) (now tz : Int) : ℝ :=
  let volumes := week_volumes trainings now tz
  let total : Int := volumes.sum
  if total = 0 then 0
  else
    let mean : ℝ := (total : ℝ) / (volumes.length : ℝ)
    let std_dev : ℝ :=
      Real.sqrt ((volumes.map (fun v => ((v : ℝ) - mean) ^ 2)).sum / (volumes.length : ℝ))
    let cv := std_dev / mean
    max ((1 - min cv 1) * 100) 0

theorem week_volumes_length (trainings : List Training) (now tz : Int) :
    (week_volumes trainings now tz).length = 10 := by
  unfold week_volumes
  rw [List.length_map]
  rfl

theorem week_volumes_isEmpty (trainings : List Training) (now tz : Int) :
    (week_volumes trainings now tz).isEmpty = false := by
  have hl := week_volumes_length trainings now tz
  cases hval : week_volumes trainings now tz with
  | nil => rw [hval] at hl; simp at hl
  | cons a l => simp

theorem week_volumes_nonneg (trainings : List Training) (now tz : Int)
    (hreps : ∀ t ∈ trainings, 0 ≤ t.reps) :
    ∀ v ∈ week_volumes trainings now tz, 0 ≤ v := by
  intro v hv
  unfold week_volumes at hv
  rw [List.mem_map] at hv
  obtain ⟨g, -, rfl⟩ := hv
  exact (from_trainings_invariant trainings now tz hreps g).2.1

/-- The single-exercise history: 40 pushups, today. -/
def C4_single : List Training :=
  [{ date := 0, exercise := "отжимания на кулаках", reps := 40 }]

/-- The mixed history covering the same total volume: 20 pushups + 20 squats. -/
def C4_mixed : List Training :=
  [{ date := 0, exercise := "отжимания на кулаках", reps := 20 },
   { date := 0, exercise := "приседания с ударами", reps := 20 }]

theorem C4_single_score : get_balance_score C4_single 0 0 = 0 := by
  have hv1 : week_volumes C4_single 0 0 = [40, 40, 40, 0, 0, 40, 0, 0, 0, 0] := by decide
  have h16 : (16 : ℝ) ≤ Real.sqrt 384 := by
    rw [show (16 : ℝ) = Real.sqrt 256 by
      rw [show (256 : ℝ) = 16 ^ 2 by norm_num, Real.sqrt_sq (by norm_num)]]
    exact Real.sqrt_le_sqrt (by norm_num)
  unfold get_balance_score
  rw [hv1]
  norm_num [List.sum_cons, List.map_cons]
  rw [min_eq_right ((le_div_iff₀ (by norm_num : (0 : ℝ) < 16)).mpr (by linarith))]
  norm_num

theorem C4_mixed_score_pos : 0 < get_balance_score C4_mixed 0 0 := by
  have hv2 : week_volumes C4_mixed 0 0 = [20, 40, 20, 0, 0, 40, 20, 20, 0, 0] := by decide
  unfold get_balance_score
  rw [hv2]
  norm_num [List.sum_cons, List.map_cons]
  rw [div_lt_one (by norm_num : (0 : ℝ) < 16)]
  rw [show (16 : ℝ) = Real.sqrt 256 by
    rw [show (256 : ℝ) = 16 ^ 2 by norm_num, Real.sqrt_sq (by norm_num)]]
  exact Real.sqrt_lt_sqrt (by norm_num) (by norm_num)

theorem clamp_range (cv : ℝ) (hcv : 0 ≤ cv) :
    0 ≤ max ((1 - min cv 1) * 100) 0 ∧ max ((1 - min cv 1) * 100) 0 ≤ 100 := by
  constructor
  · exact le_max_right _ _
  · apply max_le ?_ (by norm_num)
    have hm0 : 0 ≤ min cv 1 := le_min hcv zero_le_one
    nlinarith [hm0]

/-- Claim C4: the balance score equals the spec's
`max((1 − min(cv,1)) × 100, 0)` with `cv` the coefficient of variation of the
non-FullBody weekly volumes (for well-formed records); it is 0 when the total
weekly volume is 0; it always lies in [0,100]; and it is strictly higher for
the mixed pushups+squats history than for the pushups-only history of the
same total volume. -/
theorem C4_balance_score_spec :
    (∀ (trainings : List Training) (now tz : Int),
      0 ≤ get_balance_score trainings now tz ∧ get_balance_score trainings now tz ≤ 100) ∧
    (∀ (trainings : List Training) (now tz : Int),
      (week_volumes trainings now tz).sum = 0 → get_balance_score trainings now tz = 0) ∧
    (∀ (trainings : List Training) (now tz : Int),
      (∀ t ∈ trainings, 0 ≤ t.reps) →
      get_balance_score trainings now tz = spec_balance_score trainings now tz) ∧
    get_balance_score C4_single 0 0 < get_balance_score C4_mixed 0 0 := by
  refine ⟨?_, ?_, ?_, ?_⟩
  · intro trainings now tz
    unfold get_balance_score
    simp only [week_volumes_isEmpty, Bool.false_eq_true, if_false]
    by_cases h0 : (week_volumes trainings now tz).sum = 0
    · simp [h0]
    · rw [if_neg h0]
      apply clamp_range
      split
      · exact div_nonneg (Real.sqrt_nonneg _) (le_of_lt (by assumption))
      · exact le_refl 0
  · intro trainings now tz h0
    unfold get_balance_score
    simp only [week_volumes_isEmpty, Bool.false_eq_true, if_false]
    simp [h0]
  · intro trainings now tz hreps
    unfold get_balance_score spec_balance_score
    simp only [week_volumes_isEmpty, Bool.false_eq_true, if_false]
    by_cases h0 : (week_volumes trainings now tz).sum = 0
    · simp [h0]
    · have hsum : (0 : Int) ≤ (week_volumes trainings now tz).sum :=
        List.sum_nonneg (week_volumes_nonneg trainings now tz hreps)
      have hpos : (0 : ℝ) < ((week_volumes trainings now tz).sum : Int) := by
        have : (0 : Int) < (week_volumes trainings now tz).sum := lt_of_le_of_ne hsum (Ne.symm h0)
        exact_mod_cast this
      have hlen : (0 : ℝ) < ((week_volumes trainings now tz).length : ℝ) := by
        rw [week_volumes_length]
        norm_num
      have htarget : (0 : ℝ) <
          (((week_volumes trainings now tz).sum : Int) : ℝ) /
            ((week_volumes trainings now tz).length : ℝ) := div_pos hpos hlen
      rw [if_neg h0, if_neg h0, if_pos htarget]
  · calc get_balance_score C4_single 0 0 = 0 := C4_single_score
      _ < get_balance_score C4_mixed 0 0 := C4_mixed_score_pos

/-- Witness for C4: the zero clause at the empty log and the refinement
clause at the mixed history. -/
theorem C4_witness :
    get_balance_score [] 0 0 = 0 ∧
    get_balance_score C4_mixed 0 0 = spec_balance_score C4_mixed 0 0 :=
  ⟨C4_balance_score_spec.2.1 [] 0 0 (by decide),
   C4_balance_score_spec.2.2.1 C4_mixed 0 0 (by decide)⟩
